import Mathlib

/-!
Verification of the rule-based data-quality pipeline.

The Lean definitions below are a shallow embedding of the Python source in
`src/data_preparation.py`, `src/analysis.py` and `src/llm_utils.py`:

* a pandas frame is a `List Record`; a missing cell (`NaN`) is `none`;
* the floating-point `yoy_change` column is embedded as `FVal`, which keeps
  the non-finite values (`NaN`, `±inf`) that `pct_change` can produce, while
  finite values are exact rationals (the properties checked here compare and
  select values, they do not depend on binary rounding);
* external library collaborators (`pd.to_datetime`, `json.loads`, Python's
  `float(...)` conversion and the network-backed judgment call) are passed in
  as explicit function arguments, so every theorem quantifies over them;
* rows with a missing `company_name` are outside the model: `company_name`
  is a total `String` (none of the properties below concerns missing names).
-/

namespace DQ

/-- Float-like domain of the derived `yoy_change` column: NaN (absent),
negative infinity, positive infinity, or a finite value. -/
inductive FVal where
  | nan : FVal
  | ninf : FVal
  | pinf : FVal
  | fin : ℚ → FVal
deriving DecidableEq, Repr

/-- Float `>`: any comparison with NaN is false; infinities compare as usual. -/
def FVal.fgt : FVal → FVal → Bool
  | .nan, _ => false
  | _, .nan => false
  | .pinf, .pinf => false
  | .pinf, _ => true
  | .ninf, _ => false
  | .fin _, .pinf => false
  | .fin _, .ninf => true
  | .fin x, .fin y => decide (y < x)

/-- Float `abs`. -/
def FVal.fabs : FVal → FVal
  | .nan => .nan
  | .ninf => .pinf
  | .pinf => .pinf
  | .fin q => .fin |q|

/-- NaN-skipping maximum, as used by `Series.max()` (default `skipna=True`). -/
def FVal.nanmax (a b : FVal) : FVal :=
  if a = .nan then b else if b = .nan then a else if FVal.fgt b a then b else a

/-- One step of `pct_change(fill_method=None)`: `(cur - prev) / prev` in float
arithmetic.  A missing operand gives NaN; a zero previous value gives the
non-finite float results of dividing by (positive) zero. -/
def pctChange (prev cur : Option ℚ) : FVal :=
  match prev, cur with
  | some p, some c =>
      if p = 0 then
        if 0 < c then .pinf else if c < 0 then .ninf else .nan
      else .fin ((c - p) / p)
  | _, _ => .nan

/-- `l.tail(n)` in pandas: the last `n` rows. -/
def takeLast {α : Type} (n : Nat) (l : List α) : List α := l.drop (l.length - n)

/-- Helper for thousands separators: insert a comma after every three digits of
the reversed digit list. -/
def groupRev : List Char → List Char
  | a :: b :: c :: d :: rest => a :: b :: c :: ',' :: groupRev (d :: rest)
  | l => l

/-- Python `f"{n:,}"` on an integer: decimal digits with thousands separators. -/
def intWithCommas (n : Int) : String :=
  (if n < 0 then "-" else "") ++ String.mk ((groupRev (toString n.natAbs).data.reverse).reverse)

/-- Truncation toward zero, Python's `int(...)` on a number. -/
def ratTrunc (q : ℚ) : Int := if 0 ≤ q then ⌊q⌋ else ⌈q⌉

/-- Round to the nearest integer, ties to even — the rounding used by Python's
`round` and by `format`. -/
def roundHalfEven (q : ℚ) : Int :=
  let f : Int := ⌊q⌋
  let r : ℚ := q - f
  if r < 1/2 then f
  else if 1/2 < r then f + 1
  else if f % 2 = 0 then f else f + 1

/-- Python `round(x, 2)`. -/
def round2 (q : ℚ) : ℚ := (roundHalfEven (q * 100) : ℚ) / 100

/-- Python `f"{x:+.0%}"`: always-signed percentage rounded to a whole number.
A negative value that rounds to zero keeps its sign (`-0%`), mirroring the
sign of the rounded float. -/
def pctFmt : FVal → String
  | .nan => "+nan%"
  | .pinf => "+inf%"
  | .ninf => "-inf%"
  | .fin q =>
      (if q < 0 then "-" else "+") ++ toString (roundHalfEven (q * 100)).natAbs ++ "%"

/-- Occurrence test of one character list inside another. -/
def listContains : List Char → List Char → Bool
  | [], n => n.isEmpty
  | h :: t, n => n.isPrefixOf (h :: t) || listContains t n

/-- Python `needle in haystack` on strings (substring test). -/
def containsSub (hay needle : String) : Bool := listContains hay.data needle.data

/-- Python `str.strip()`: drop whitespace from both ends. -/
def pyStrip (s : String) : String :=
  String.mk (((s.data.dropWhile Char.isWhitespace).reverse.dropWhile
    Char.isWhitespace).reverse)

/-- Python `s.lower()` on the model's (ASCII) alphabet. -/
def pyLower (s : String) : String := String.mk (s.data.map Char.toLower)

/-- Python `s[n:]` (drop the first `n` characters). -/
def pyDrop (n : Nat) (s : String) : String := String.mk (s.data.drop n)

/-- Python `s[:n]` (keep the first `n` characters). -/
def pyTake (n : Nat) (s : String) : String := String.mk (s.data.take n)

/-- Python `s.startswith(p)`. -/
def pyStartsWith (s p : String) : Bool := p.data.isPrefixOf s.data

/-- The start positions of every occurrence of `n` in `l`, offset by `i`. -/
def occIdxs : List Char → List Char → Nat → List Nat
  | [], _, _ => []
  | h :: t, n, i => (if n.isPrefixOf (h :: t) then [i] else []) ++ occIdxs t n (i + 1)

/-- Code-point-wise lexicographic comparison of two character lists — how
pandas (Python) compares strings when sorting. -/
def charsLt : List Char → List Char → Bool
  | [], [] => false
  | [], _ :: _ => true
  | _ :: _, [] => false
  | a :: as, b :: bs =>
      if a.toNat < b.toNat then true
      else if b.toNat < a.toNat then false
      else charsLt as bs

/-- Python string `<`. -/
def strLt (a b : String) : Bool := charsLt a.data b.data

/-- Python string `<=` (for a linear order, `a <= b` iff `not (b < a)`). -/
def strLe (a b : String) : Bool := !(strLt b a)

theorem charToNat_inj {a b : Char} (h : a.toNat = b.toNat) : a = b := by
  apply Char.ext
  apply UInt32.toNat.inj
  exact h

theorem charsLt_cons_iff {x y : Char} {xs ys : List Char} :
    charsLt (x :: xs) (y :: ys) = true ↔
      (x.toNat < y.toNat ∨ (x = y ∧ charsLt xs ys = true)) := by
  simp only [charsLt]
  by_cases h1 : x.toNat < y.toNat
  · simp [h1]
  · by_cases h2 : y.toNat < x.toNat
    · have hne : x ≠ y := fun he => absurd (he ▸ h2) (Nat.lt_irrefl _)
      simp [h1, h2, hne]
    · have heq : x = y := charToNat_inj (Nat.le_antisymm (Nat.not_lt.mp h2) (Nat.not_lt.mp h1))
      simp [h1, h2, heq]

theorem charsLt_irrefl (l : List Char) : charsLt l l = false := by
  induction l with
  | nil => rfl
  | cons a as ih => simp [charsLt, ih]

theorem charsLt_trans : ∀ {a b c : List Char},
    charsLt a b = true → charsLt b c = true → charsLt a c = true
  | [], [], _, h1, _ => by simp [charsLt] at h1
  | [], _ :: _, [], _, h2 => by simp [charsLt] at h2
  | [], _ :: _, _ :: _, _, _ => rfl
  | _ :: _, [], _, h1, _ => by simp [charsLt] at h1
  | _ :: _, _ :: _, [], _, h2 => by simp [charsLt] at h2
  | x :: xs, y :: ys, z :: zs, h1, h2 => by
      rcases charsLt_cons_iff.mp h1 with hx | ⟨rfl, hx⟩
      · rcases charsLt_cons_iff.mp h2 with hy | ⟨rfl, _⟩
        · exact charsLt_cons_iff.mpr (Or.inl (Nat.lt_trans hx hy))
        · exact charsLt_cons_iff.mpr (Or.inl hx)
      · rcases charsLt_cons_iff.mp h2 with hy | ⟨rfl, hy⟩
        · exact charsLt_cons_iff.mpr (Or.inl hy)
        · exact charsLt_cons_iff.mpr (Or.inr ⟨rfl, charsLt_trans hx hy⟩)

theorem charsLt_eq_of_not : ∀ {a b : List Char},
    charsLt a b = false → charsLt b a = false → a = b
  | [], [], _, _ => rfl
  | [], _ :: _, h1, _ => by simp [charsLt] at h1
  | _ :: _, [], _, h2 => by simp [charsLt] at h2
  | x :: xs, y :: ys, h1, h2 => by
      by_cases hxy : x.toNat < y.toNat
      · simp [charsLt, hxy] at h1
      · by_cases hyx : y.toNat < x.toNat
        · simp [charsLt, hyx] at h2
        · have heq : x = y :=
            charToNat_inj (Nat.le_antisymm (Nat.not_lt.mp hyx) (Nat.not_lt.mp hxy))
          subst heq
          simp [charsLt, hxy] at h1 h2
          rw [charsLt_eq_of_not h1 h2]

theorem charsLt_asymm {a b : List Char} (h : charsLt a b = true) : charsLt b a = false := by
  cases hc : charsLt b a with
  | false => rfl
  | true => exact absurd (charsLt_irrefl a) (by simp [charsLt_trans h hc])

theorem strLt_trans {a b c : String} (h1 : strLt a b = true) (h2 : strLt b c = true) :
    strLt a c = true := charsLt_trans h1 h2

theorem strLt_asymm {a b : String} (h : strLt a b = true) : strLt b a = false :=
  charsLt_asymm h

theorem strLt_irrefl (a : String) : strLt a a = false := charsLt_irrefl a.data

theorem strEq_of_not_lt {a b : String} (h1 : strLt a b = false) (h2 : strLt b a = false) :
    a = b := by
  cases a with
  | mk da =>
      cases b with
      | mk db => exact congrArg String.mk (charsLt_eq_of_not h1 h2)

theorem strLt_of_ne_of_not_lt {a b : String} (hne : a ≠ b) (h : strLt b a = false) :
    strLt a b = true := by
  cases hc : strLt a b with
  | true => rfl
  | false => exact absurd (strEq_of_not_lt hc h) hne

/-- Calendar date, as produced by the external date parser.  Only the fields
read by `strftime('%d-%b')` and `str(...)` are kept.  Day is below 100, so the
`%d` field is always exactly two digits. -/
structure PDate where
  year : Int
  month : Fin 12
  day : Fin 100
deriving DecidableEq, Repr

def monthAbbrs : List String :=
  ["Jan", "Feb", "Mar", "Apr", "May", "Jun", "Jul", "Aug", "Sep", "Oct", "Nov", "Dec"]

def monthAbbr (m : Fin 12) : String := monthAbbrs.getD m.val "Jan"

/-- Two-digit zero-padded decimal. -/
def twoDigits (n : Nat) : String := (if n < 10 then "0" else "") ++ toString n

/-- `strftime('%d-%b')`. -/
def PDate.strftimeDayMon (d : PDate) : String :=
  twoDigits d.day.val ++ "-" ++ monthAbbr d.month

/-- A cell of the `fiscal_period_end` column: a string, a timestamp-like value
(anything exposing `strftime`), the float NaN that pandas stores for a missing
cell, or Python `None`. -/
inductive DateCell where
  | str : String → DateCell
  | ts : PDate → DateCell
  | nanV : DateCell
  | pyNone : DateCell
deriving DecidableEq, Repr

/-- Python `!=` between date cells: float NaN compares unequal to everything,
itself included; all other comparisons are structural. -/
def DateCell.pyNe : DateCell → DateCell → Bool
  | .nanV, _ => true
  | _, .nanV => true
  | a, b => decide (a ≠ b)

/-- Python `str(...)` of a date cell, as used by `astype(str)`. -/
def DateCell.pyStr : DateCell → String
  | .str s => s
  | .ts d =>
      toString d.year ++ "-" ++ twoDigits (d.month.val + 1) ++ "-" ++
        twoDigits d.day.val ++ " 00:00:00"
  | .nanV => "nan"
  | .pyNone => "None"

/-- Anchored body of the pattern `\d{2}-[A-Za-z]{3}`. -/
def dateFmtCore : List Char → Bool
  | [d1, d2, dash, a, b, c] =>
      d1.isDigit && d2.isDigit && (dash == '-') && a.isAlpha && b.isAlpha && c.isAlpha
  | _ => false

/-- `re.match(r'^\d{2}-[A-Za-z]{3}$', s)`: anchored at both ends, but `$` also
accepts a single trailing newline. -/
def matchesDateFmt (s : String) : Bool :=
  dateFmtCore s.data ||
    (decide (s.data.getLast? = some (Char.ofNat 10)) && dateFmtCore s.data.dropLast)

/-- `correct_fiscal_period_end` (src/data_preparation.py, lines 38-68).
The library parser `pd.to_datetime` is an external collaborator passed in as
`parse` (`none` models a raised ValueError/TypeError).  Each branch computes
the corrected value, and the returned flag is the Python comparison
`corrected_value != original_value` — note that this comparison is `True` for
a NaN input even though nothing changed. -/
def correct_fiscal_period_end (parse : String → Option PDate) (date_val : DateCell) :
    DateCell × Bool :=
  match date_val with
  | .str s =>
      if matchesDateFmt s then (.str s, false)
      else
        match parse s with
        | some d =>
            let c := DateCell.str d.strftimeDayMon
            (c, DateCell.pyNe c (.str s))
        | none => (.str s, DateCell.pyNe (.str s) (.str s))
  | .ts d =>
      let c := DateCell.str d.strftimeDayMon
      (c, DateCell.pyNe c (.ts d))
  | .nanV => (.nanV, DateCell.pyNe .nanV .nanV)
  | .pyNone => (.pyNone, DateCell.pyNe .pyNone .pyNone)

/-- `infer_missing_revenue_unit` (src/data_preparation.py, lines 70-76), as a
function of the two cells it reads. -/
def infer_missing_revenue_unit (revenue_unit : Option String) (country : Option String) :
    Option String :=
  if revenue_unit ≠ none ∧ revenue_unit ≠ some "" then revenue_unit
  else if country = some "United Kingdom" then some "GBP"
  else revenue_unit

/-- One row of the canonical record schema, together with the columns the
pipeline writes.  `none` is a missing cell.  After step 8 of the rule checks
the source replaces missing `revenue` / `revenue_unit` cells by the string
"N/A"; the model keeps `none` for those, since every downstream read tests
exactly "is this cell NaN or the string N/A" (the `fiscal_period_end` column,
whose filled value is compared against the literal "N/A" by `summarize`, does
get the replacement string). -/
structure Record where
  provider_id : Option String
  company_name : String
  year : Int
  country : Option String
  industry_code : Option String
  revenue : Option ℚ
  revenue_unit : Option String
  fiscal_period_end : DateCell
  company_name_original : String := ""
  fiscal_period_end_original : DateCell := .pyNone
  date_was_corrected : Bool := false
  flag_date_format : Bool := false
  yoy_change : FVal := .nan
  yoy_volatility_flag : Bool := false
  llm_verdict : Option String := none
  llm_explanation : Option String := none
  llm_confidence : Option ℚ := none
deriving DecidableEq, Repr

/-- `VOLATILITY_THRESHOLD` from src/config.py. -/
def VOLATILITY_THRESHOLD : ℚ := 1/2

/-- The `(company_name, year)` lexicographic key order of
`sort_values(by=["company_name", "year"])`; a pandas multi-key sort is a
stable lexicographic sort. -/
def rowLe (a b : Record) : Prop :=
  strLt a.company_name b.company_name = true ∨
    (a.company_name = b.company_name ∧ a.year ≤ b.year)

instance : DecidableRel rowLe := fun a b =>
  inferInstanceAs (Decidable (strLt a.company_name b.company_name = true ∨
    (a.company_name = b.company_name ∧ a.year ≤ b.year)))

instance : IsTotal Record rowLe := by
  constructor
  intro a b
  cases h1 : strLt a.company_name b.company_name with
  | true => exact Or.inl (Or.inl h1)
  | false =>
    cases h2 : strLt b.company_name a.company_name with
    | true => exact Or.inr (Or.inl h2)
    | false =>
      have he : a.company_name = b.company_name := strEq_of_not_lt h1 h2
      rcases le_total a.year b.year with hy | hy
      · exact Or.inl (Or.inr ⟨he, hy⟩)
      · exact Or.inr (Or.inr ⟨he.symm, hy⟩)

instance : IsTrans Record rowLe := by
  constructor
  intro a b c hab hbc
  rcases hab with h1 | ⟨h1, hy1⟩
  · rcases hbc with h2 | ⟨h2, _⟩
    · exact Or.inl (strLt_trans h1 h2)
    · exact Or.inl (h2 ▸ h1)
  · rcases hbc with h2 | ⟨h2, hy2⟩
    · exact Or.inl (h1 ▸ h2)
    · exact Or.inr ⟨h1.trans h2, hy1.trans hy2⟩

/-- `groupby("company_name")["revenue"].pct_change(fill_method=None)`: walk
the frame keeping, per company name, the revenue of that company's previous
row; a company's first row has no previous row and gets NaN.  (This is the
groupby semantics itself: it does not assume the rows of a company are
contiguous.) -/
def assignYoyGo (seen : List (String × Option ℚ)) : List Record → List Record
  | [] => []
  | r :: rs =>
      let change := match seen.lookup r.company_name with
        | none => FVal.nan
        | some prev => pctChange prev r.revenue
      { r with yoy_change := change } ::
        assignYoyGo ((r.company_name, r.revenue) :: seen) rs

def assignYoy (l : List Record) : List Record := assignYoyGo [] l

/-- Step 8 of the rule checks for the `fiscal_period_end` column:
`fillna("N/A")`. -/
def fillNA (r : Record) : Record :=
  { r with fiscal_period_end :=
      if r.fiscal_period_end = .nanV then .str "N/A" else r.fiscal_period_end }

/-- `df[df.duplicated(subset=["company_name", "year"], keep=False)]`: every
member of any `(company_name, year)` group of size at least two. -/
def duplicatedRows (l : List Record) : List Record :=
  l.filter (fun r =>
    2 ≤ l.countP (fun x => (x.company_name == r.company_name) && (x.year == r.year)))

/-- The result bundle of `run_rule_based_checks`.  The dtype-conformance check
(step 4 of the source) compares pandas storage dtypes and has no value-level
content in a typed model; it is not carried here. -/
structure CheckResults where
  missing_year : Nat
  missing_company_name : Nat
  missing_revenue : Nat
  duplicates : List Record
  volatility_flags : List Record
  date_corrections_count : Nat
  remaining_date_issues : Nat
deriving DecidableEq, Repr

/-- Step 1 of the rule checks, per row: keep the original, apply
`correct_fiscal_period_end`, record the flag, and re-check the corrected
value against the canonical pattern (via `astype(str)`, hence `pyStr`). -/
def correctRowDate (parse : String → Option PDate) (r : Record) : Record :=
  let res := correct_fiscal_period_end parse r.fiscal_period_end
  { r with fiscal_period_end_original := r.fiscal_period_end,
           fiscal_period_end := res.1,
           date_was_corrected := res.2,
           flag_date_format := ! matchesDateFmt res.1.pyStr }

/-- Step 2, per row: revenue-unit inference. -/
def inferRowUnit (r : Record) : Record :=
  { r with revenue_unit := infer_missing_revenue_unit r.revenue_unit r.country }

/-- `str.upper()` on the model's (ASCII) name alphabet: upper-case every
character. -/
def pyUpper (s : String) : String := String.mk (s.data.map Char.toUpper)

/-- Step 3, per row: keep the original name and upper-case the working one. -/
def upperRowName (r : Record) : Record :=
  { r with company_name_original := r.company_name,
           company_name := pyUpper r.company_name }

/-- Step 7b, per row: `abs(yoy_change) > VOLATILITY_THRESHOLD` in float
comparison semantics. -/
def setVolFlag (r : Record) : Record :=
  { r with yoy_volatility_flag := FVal.fgt r.yoy_change.fabs (.fin VOLATILITY_THRESHOLD) }

/-- Steps 1-3 of `run_rule_based_checks`, per row (the source runs each step
as its own pass over the frame; the passes are per-row, so their composition
is one map). -/
def prepRow (parse : String → Option PDate) (r : Record) : Record :=
  upperRowName (inferRowUnit (correctRowDate parse r))

/-- The record set as prepared by steps 1-3 of `run_rule_based_checks`. -/
def preparedRows (parse : String → Option PDate) (df : List Record) : List Record :=
  df.map (prepRow parse)

/-- The record set returned by `run_rule_based_checks`: steps 1-3, the
`(company_name, year)` sort, the grouped `pct_change`, the volatility flag,
and the `fillna("N/A")` standardization. -/
def checkedRows (parse : String → Option PDate) (df : List Record) : List Record :=
  ((assignYoy (List.insertionSort rowLe (preparedRows parse df))).map setVolFlag).map fillNA

/-- `run_rule_based_checks` (src/data_preparation.py, lines 78-155).  The
steps run in source order: date correction and format flag, revenue-unit
inference, company-name upper-casing (original kept in a separate column),
missingness count, duplicate detection, the `(company_name, year)` sort, the
grouped `pct_change`, the volatility flag, and the `fillna("N/A")`
standardization.  `year` and `company_name` are total in the model, so their
missingness counts are zero. -/
def run_rule_based_checks (parse : String → Option PDate) (df : List Record) :
    List Record × CheckResults :=
  let final := checkedRows parse df
  (final,
    { missing_year := 0,
      missing_company_name := 0,
      missing_revenue := (preparedRows parse df).countP (fun r => r.revenue.isNone),
      duplicates := duplicatedRows (preparedRows parse df),
      volatility_flags := final.filter (fun r => r.yoy_volatility_flag),
      date_corrections_count := final.countP (fun r => r.date_was_corrected),
      remaining_date_issues := final.countP (fun r => r.flag_date_format) })

/-- pandas `==` between two possibly-missing cells: a missing cell compares
unequal to everything, itself included. -/
def optPyEq (a b : Option String) : Bool :=
  match a, b with
  | some x, some y => x == y
  | _, _ => false

/-- The result of `get_peer_context`: either of the two degenerate states (a
dictionary of `peer_count` and `message`), or the full statistics dictionary. -/
inductive PeerContext where
  | noPeers (peer_count : Nat) (message : String)
  | noRevenue (peer_count : Nat) (message : String)
  | stats (peer_count : Nat) (median_revenue mean_revenue q25_revenue q75_revenue : ℚ)
      (analysis_year : Int)
deriving DecidableEq, Repr

/-- Linear-interpolation quantile (the pandas default) on an ascending list. -/
def quantileSorted (l : List ℚ) (p : ℚ) : ℚ :=
  match l with
  | [] => 0
  | x :: xs =>
      let n : ℚ := xs.length
      let h := p * n
      let i := (⌊h⌋).toNat
      let lo := (x :: xs).getD i x
      let hi := (x :: xs).getD (i + 1) lo
      lo + (h - ⌊h⌋) * (hi - lo)

/-- The peer mask of `get_peer_context`: same country, same industry code,
different provider id, and year exactly the target year (pandas cell
comparisons, so a missing cell is equal to nothing and unequal to
everything). -/
def isPeerOf (company_row : Record) (target_year : Int) (r : Record) : Bool :=
  optPyEq r.country company_row.country &&
    optPyEq r.industry_code company_row.industry_code &&
    !(optPyEq r.provider_id company_row.provider_id) &&
    (r.year == target_year)

/-- `get_peer_context` (src/analysis.py, lines 34-64).  The revenue coercion
`replace("N/A", nan)` + `to_numeric(errors='coerce')` keeps exactly the
numeric cells, i.e. the `some` cells of the model. -/
def get_peer_context (full_df : List Record) (company_row : Record) (target_year : Int) :
    PeerContext :=
  let peers := full_df.filter (isPeerOf company_row target_year)
  if peers.isEmpty then
    .noPeers 0 ("No peers found for " ++ toString target_year)
  else
    let peer_revenue := peers.filterMap (fun r => r.revenue)
    if peer_revenue.isEmpty then
      .noRevenue peers.length ("No peer revenue data for " ++ toString target_year)
    else
      let sortedRev := List.insertionSort (· ≤ ·) peer_revenue
      .stats ((peers.map (fun r => r.provider_id)).dedup.length)
        (quantileSorted sortedRev (1/2))
        (peer_revenue.sum / peer_revenue.length)
        (quantileSorted sortedRev (1/4))
        (quantileSorted sortedRev (3/4))
        target_year

/-- Year order of the `sort_values('year')` inside `summarize_company_data`.
The source's single-key quicksort leaves the order of equal years
unspecified; the model uses a stable sort, which agrees with it on every list
whose years are distinct and on every already-sorted list. -/
def yearLe (a b : Record) : Prop := a.year ≤ b.year

instance : DecidableRel yearLe := fun a b =>
  inferInstanceAs (Decidable (a.year ≤ b.year))

instance : IsTotal Record yearLe :=
  ⟨fun a b => le_total a.year b.year⟩

instance : IsTrans Record yearLe :=
  ⟨fun _ _ _ h1 h2 => le_trans h1 h2⟩

/-- One entry of the summary string (the loop body of
`summarize_company_data`): the leading token is the row's `fiscal_period_end`
value — "UNKNOWN" when that cell holds the missing marker "N/A" — not the
row's year. -/
def summaryEntry (r : Record) : String :=
  let revenue_str := match r.revenue with
    | some q => intWithCommas (ratTrunc q)
    | none => "MISSING"
  let yoy_str := if r.yoy_change = .nan then "MISSING" else pctFmt r.yoy_change
  let year_val :=
    if DateCell.pyNe r.fiscal_period_end (.str "N/A") then r.fiscal_period_end.pyStr
    else "UNKNOWN"
  year_val ++ ": " ++ revenue_str ++ " (" ++ yoy_str ++ ")"

/-- `summarize_company_data` (src/analysis.py, lines 12-32).  Its `max_years`
parameter is unused in the source body and is dropped here. -/
def summarize_company_data (df_company : List Record) : String :=
  String.intercalate "; " ((List.insertionSort yearLe df_company).map summaryEntry)

/-- Lines 93-94 of `run_llm_analysis`: the rows of the company with year at
most the target year, then `.tail(3)` (the last three rows in frame order),
then `summarize_company_data`. -/
def trailingSummary (company_data : List Record) (target_year : Int) : String :=
  summarize_company_data
    (takeLast 3 (company_data.filter (fun r => decide (r.year ≤ target_year))))

/-- The judgment dictionary consumed by `run_llm_analysis`; the fields are
optional because the caller reads them with `dict.get` defaults. -/
structure LlmResult where
  verdict : Option String := none
  explanation : Option String := none
  confidence : Option ℚ := none
deriving DecidableEq, Repr

/-- The volatile rows `df[df['yoy_volatility_flag'] == True]`. -/
def volatileRows (df : List Record) : List Record :=
  df.filter (fun r => r.yoy_volatility_flag)

/-- The Python string order as a (non-strict) relation, used for the groupby
key sort. -/
def nameLe (a b : String) : Prop := strLt b a = false

instance : DecidableRel nameLe := fun a b =>
  inferInstanceAs (Decidable (strLt b a = false))

instance : IsTotal String nameLe := by
  constructor
  intro a b
  cases h : strLt b a with
  | false => exact Or.inl h
  | true => exact Or.inr (strLt_asymm h)

instance : IsTrans String nameLe := by
  constructor
  intro a b c h1 h2
  simp only [nameLe] at h1 h2 ⊢
  cases hc : strLt c a with
  | false => rfl
  | true =>
    cases hbc : strLt b c with
    | true =>
      rw [strLt_trans hbc hc] at h1
      exact h1
    | false =>
      have he : b = c := strEq_of_not_lt hbc h2
      rw [he] at h1
      rw [hc] at h1
      exact h1

/-- The keys of `groupby('company_name')` over the volatile rows: the distinct
company names in ascending order (pandas groupby sorts its keys). -/
def volatileNames (df : List Record) : List String :=
  (List.insertionSort nameLe ((volatileRows df).map (fun r => r.company_name))).dedup

/-- The per-company aggregate `x.abs().max()` over that company's volatile
rows (a NaN-skipping maximum; NaN when every value is NaN). -/
def groupMaxAbs (df : List Record) (name : String) : FVal :=
  (((volatileRows df).filter (fun r => r.company_name == name)).map
    (fun r => r.yoy_change.fabs)).foldl FVal.nanmax .nan

/-- Rank of an `FVal` in the total key order `nan < ninf < fin _ < pinf`. -/
def FVal.rank : FVal → Nat
  | .nan => 0
  | .ninf => 1
  | .fin _ => 2
  | .pinf => 3

def FVal.finVal : FVal → ℚ
  | .fin q => q
  | _ => 0

/-- A total strict order on `FVal` that agrees with the float `<` on non-NaN
values (`nlargest` drops NaN entries, so only that part is ever used; NaN is
placed at the bottom). -/
def FVal.ltKey (a b : FVal) : Prop :=
  a.rank < b.rank ∨ (a.rank = b.rank ∧ a.finVal < b.finVal)

instance : DecidableRel FVal.ltKey := fun a b =>
  inferInstanceAs (Decidable (a.rank < b.rank ∨ (a.rank = b.rank ∧ a.finVal < b.finVal)))

/-- The descending order in which `Series.nlargest` ranks the (name-keyed,
name-sorted) aggregate series: larger values first; on equal values
`keep='first'` retains earlier series positions, which on a name-sorted
series means smaller names first. -/
def selGe (a b : String × FVal) : Prop :=
  FVal.ltKey b.2 a.2 ∨ (a.2 = b.2 ∧ nameLe a.1 b.1)

instance : DecidableRel selGe := fun a b =>
  inferInstanceAs (Decidable (FVal.ltKey b.2 a.2 ∨ (a.2 = b.2 ∧ nameLe a.1 b.1)))

/-- `Series.nlargest(n)` on the aggregate series: drop NaN values, sort
descending (stably), keep the first `n`, and return their keys. -/
def nlargestKeys (n : Nat) (s : List (String × FVal)) : List String :=
  (((s.filter (fun kv => decide (kv.2 ≠ .nan))).insertionSort selGe).take n).map
    (fun kv => kv.1)

/-- The escalation selection of `run_llm_analysis` (src/analysis.py, lines
76-82): group the volatile rows by company name, aggregate each group by the
largest absolute change, and keep the top `topN` company names. -/
def selectedCompanies (topN : Nat) (df : List Record) : List String :=
  nlargestKeys topN ((volatileNames df).map (fun k => (k, groupMaxAbs df k)))

/-- The body of the per-row loop of `run_llm_analysis`: build the trailing
summary and the peer context for this row's year, call the judgment
collaborator, and write the three judgment cells (with the `dict.get`
defaults of the source). -/
def applyJudgment (judge : String → String → PeerContext → LlmResult)
    (df : List Record) (r : Record) : Record :=
  let company_data := df.filter (fun x => x.company_name == r.company_name)
  let company_summary := trailingSummary company_data r.year
  let peer_context := get_peer_context df r r.year
  let llm_result := judge r.company_name company_summary peer_context
  { r with llm_verdict := some (llm_result.verdict.getD "uncertain"),
           llm_explanation := some (llm_result.explanation.getD ""),
           llm_confidence := some (llm_result.confidence.getD (1/2)) }

/-- `run_llm_analysis` (src/analysis.py, lines 66-111).  `judge` is the
external `get_llm_judgment`; `topN` is the configured `top_n_companies`
(default 3).  The three judgment columns are first reset to missing on every
row, then the rows of each selected company are judged one by one; the paired
list is the report dictionary keyed "{company}_{year}" (built here in row
order; the source dict keeps the last write for a duplicated key). -/
def run_llm_analysis (judge : String → String → PeerContext → LlmResult)
    (topN : Nat) (df : List Record) :
    List Record × List (String × LlmResult) :=
  let sel := selectedCompanies topN df
  let out := df.map (fun r =>
    let r0 := { r with llm_verdict := none, llm_explanation := none,
                       llm_confidence := none }
    if sel.contains r.company_name then applyJudgment judge df r0 else r0)
  let results := (df.filter (fun r => sel.contains r.company_name)).map
    (fun r =>
      (r.company_name ++ "_" ++ toString r.year,
        judge r.company_name
          (trailingSummary (df.filter (fun x => x.company_name == r.company_name)) r.year)
          (get_peer_context df r r.year)))
  (out, results)

/-- A JSON value, as produced by `json.loads` for a dictionary entry.  The
payloads of nested arrays and objects are never read by the parser wrapper,
so they are not carried. -/
inductive JVal where
  | jnull : JVal
  | jbool : Bool → JVal
  | jnum : ℚ → JVal
  | jstr : String → JVal
  | jarr : JVal
  | jobj : JVal
deriving DecidableEq, Repr

/-- The dictionary returned by `parse_llm_response`: after normalization the
verdict is always a string and the confidence always a number, while the
explanation of a successfully parsed response is kept verbatim (whatever JSON
type it had). -/
structure ParsedResponse where
  verdict : String
  explanation : JVal
  confidence : ℚ
deriving DecidableEq, Repr

/-- Python `s.rsplit(sep, 1)[0]`: everything before the last occurrence of
`sep`, or the whole string when `sep` does not occur. -/
def beforeLast (sep s : String) : String :=
  match (occIdxs s.data sep.data 0).getLast? with
  | some i => pyTake i s
  | none => s

/-- The code-fence stripping of `parse_llm_response`. -/
def stripFences (s : String) : String :=
  if pyStartsWith s "```json" then pyStrip (beforeLast "```" (pyDrop 7 s))
  else if pyStartsWith s "```" then pyStrip (beforeLast "```" (pyDrop 3 s))
  else s

/-- The brace slicing of `parse_llm_response`:
`cleaned[cleaned.find("\x7b") : cleaned.rfind("\x7d") + 1]` when both braces
occur (an empty slice when the last closing brace precedes the first opening
one, as in Python). -/
def braceSlice (s : String) : String :=
  if containsSub s "\x7b" && containsSub s "\x7d" then
    let cs := s.data
    let i := cs.findIdx (fun c => c == Char.ofNat 123)
    let j := cs.length - 1 - (cs.reverse.findIdx (fun c => c == Char.ofNat 125))
    String.mk ((cs.drop i).take (j + 1 - i))
  else s

/-- `_parse_text_fallback` (src/llm_utils.py, lines 297-314): keyword
heuristics over the lower-cased response, with a reduced default
confidence. -/
def parse_text_fallback (response_text : String) : ParsedResponse :=
  let lower := pyLower response_text
  let base : ParsedResponse :=
    { verdict := "uncertain",
      explanation := .jstr ("AI response analysis: " ++ pyTake 150 response_text ++ "..."),
      confidence := 1/2 }
  if ["implausible", "suspicious", "anomal", "error", "invalid"].any
      (fun w => containsSub lower w) then
    { base with verdict := "implausible", confidence := 7/10 }
  else if ["plausible", "reasonable", "consistent", "valid", "correct"].any
      (fun w => containsSub lower w) then
    { base with verdict := "plausible", confidence := 7/10 }
  else base

/-- The fixed dictionary returned for an empty or non-string response. -/
def noResponseResult : ParsedResponse :=
  { verdict := "uncertain",
    explanation := .jstr "No response received from AI analysis",
    confidence := 1/2 }

/-- The verdict normalization: values outside the closed set — including
non-string JSON values — become "uncertain". -/
def coerceVerdict : JVal → String
  | .jstr v =>
      if v = "plausible" ∨ v = "implausible" ∨ v = "uncertain" then v else "uncertain"
  | _ => "uncertain"

/-- The field normalization of `parse_llm_response` on a decoded dictionary:
all three required fields present — coerce the verdict, keep the explanation
verbatim, convert / clamp / round the confidence — otherwise the raised
"missing required fields" error lands in the generic `except` arm, i.e. in
the text fallback on the original response. -/
def normalizeFields (pyFloat : JVal → Option ℚ) (response_text : String)
    (fields : List (String × JVal)) : ParsedResponse :=
  match fields.lookup "verdict", fields.lookup "explanation",
      fields.lookup "confidence" with
  | some v, some e, some c =>
      { verdict := coerceVerdict v,
        explanation := e,
        confidence :=
          match pyFloat c with
          | some q => round2 (max 0 (min 1 q))
          | none => 1/2 }
  | _, _, _ => parse_text_fallback response_text

/-- `parse_llm_response` (src/llm_utils.py, lines 250-294).  Two library
collaborators are passed in: `jsonParse` models `json.loads` restricted to
the useful outcome (the field list of a decoded dictionary; `none` covers a
decode error and every non-dictionary decode, all of which reach the fallback
through the two `except` arms), and `pyFloat` models Python's `float(...)`
conversion (`none` is a raised ValueError/TypeError).  The input `none`
models a non-string (falsy) response. -/
def parse_llm_response (jsonParse : String → Option (List (String × JVal)))
    (pyFloat : JVal → Option ℚ) (response_text : Option String) : ParsedResponse :=
  match response_text with
  | none => noResponseResult
  | some s =>
      if s = "" then noResponseResult
      else
        match jsonParse (braceSlice (stripFences (pyStrip s))) with
        | none => parse_text_fallback s
        | some fields => normalizeFields pyFloat s fields

/-- A parser instance used by concrete examples: every string fails to
parse. -/
def noParse : String → Option PDate := fun _ => none

/-- Input-row builder for the concrete examples below. -/
def mkRow (pid name : String) (year : Int) (rev : Option ℚ) : Record :=
  { provider_id := some pid, company_name := name, year := year,
    country := some "US", industry_code := some "TECH",
    revenue := rev, revenue_unit := some "USD",
    fiscal_period_end := .str "31-Dec" }

/-- C9: `infer_missing_revenue_unit` keeps a present non-empty unit
unchanged; an absent (or empty) unit becomes "GBP" exactly when the country
is "United Kingdom", and is returned unchanged — hence stays absent — for
every other country. -/
theorem c9_infer_unit (unit country : Option String) :
    (unit ≠ none ∧ unit ≠ some "" → infer_missing_revenue_unit unit country = unit) ∧
    (¬(unit ≠ none ∧ unit ≠ some "") → country = some "United Kingdom" →
      infer_missing_revenue_unit unit country = some "GBP") ∧
    (¬(unit ≠ none ∧ unit ≠ some "") → country ≠ some "United Kingdom" →
      infer_missing_revenue_unit unit country = unit) := by
  refine ⟨fun h => ?_, fun h hc => ?_, fun h hc => ?_⟩
  · simp [infer_missing_revenue_unit, h]
  · simp [infer_missing_revenue_unit, h, hc]
  · simp [infer_missing_revenue_unit, h, hc]

theorem c9_infer_unit_witness :
    infer_missing_revenue_unit none (some "United Kingdom") = some "GBP" ∧
    infer_missing_revenue_unit none (some "Germany") = none ∧
    infer_missing_revenue_unit (some "USD") (some "United Kingdom") = some "USD" :=
  ⟨(c9_infer_unit none (some "United Kingdom")).2.1 (by simp) rfl,
   (c9_infer_unit none (some "Germany")).2.2 (by simp) (by simp),
   (c9_infer_unit (some "USD") (some "United Kingdom")).1 (by simp)⟩

/-- C5 (code bug): date correction is not idempotent at a missing (NaN)
fiscal-period cell.  The first application returns the NaN unchanged but —
because `NaN != NaN` is true in Python — flags it as corrected, and so does
the second application on the returned value, where the claim requires the
flag to be false. -/
theorem c5_nan_breaks_idempotence :
    correct_fiscal_period_end noParse
        ((correct_fiscal_period_end noParse DateCell.nanV).1) =
      (DateCell.nanV, true) := rfl

/-- C6 (code bug): an absent (NaN) fiscal-period value cannot be parsed, and
the claim (and the function's own "was a correction made" intent) requires
`(original, false)`; the code instead returns the original NaN with the
corrected flag true, again because `NaN != NaN` is true in Python. -/
theorem c6_nan_flagged_corrected :
    correct_fiscal_period_end noParse DateCell.nanV = (DateCell.nanV, true) := rfl

/-- C4: with no peers at the target year, `get_peer_context` returns the
zero-count informational state; with peers but no usable revenue it returns
the other informational state (carrying the peer row count); the two states
are distinguishable, carry diagnostic messages, contain no numeric
statistics, and the total function raises nothing. -/
theorem c4_peer_context_degenerate (full_df : List Record) (row : Record) (y : Int) :
    ((∀ r ∈ full_df, isPeerOf row y r = false) →
      get_peer_context full_df row y =
        .noPeers 0 ("No peers found for " ++ toString y)) ∧
    ((∃ r ∈ full_df, isPeerOf row y r = true) →
      (∀ r ∈ full_df, isPeerOf row y r = true → r.revenue = none) →
      get_peer_context full_df row y =
        .noRevenue (full_df.filter (isPeerOf row y)).length
          ("No peer revenue data for " ++ toString y)) ∧
    (∀ (n₁ n₂ : Nat) (m₁ m₂ : String),
      PeerContext.noPeers n₁ m₁ ≠ PeerContext.noRevenue n₂ m₂) := by
  refine ⟨fun h => ?_, fun hex hall => ?_, fun n₁ n₂ m₁ m₂ hc => by cases hc⟩
  · have hfil : full_df.filter (isPeerOf row y) = [] :=
      List.filter_eq_nil_iff.mpr (fun r hr => by simp [h r hr])
    simp [get_peer_context, hfil]
  · have hne : (full_df.filter (isPeerOf row y)).isEmpty = false := by
      rcases hex with ⟨r, hr, hpr⟩
      simp [List.isEmpty_eq_false_iff_exists_mem]
      exact ⟨r, hr, hpr⟩
    have hrev : (full_df.filter (isPeerOf row y)).filterMap (fun r => r.revenue) = [] := by
      refine List.filterMap_eq_nil_iff.mpr (fun r hr => ?_)
      rcases List.mem_filter.mp hr with ⟨hmem, hpeer⟩
      exact hall r hmem hpeer
    simp [get_peer_context, hne, hrev]

def c4row : Record := mkRow "1" "A" 2023 (some 1000)

def c4peer : Record := mkRow "2" "B" 2023 none

theorem c4_peer_context_degenerate_witness :
    (get_peer_context [c4row] c4row 2023 =
      .noPeers 0 ("No peers found for " ++ toString (2023 : Int))) ∧
    (get_peer_context [c4row, c4peer] c4row 2023 =
      .noRevenue ([c4row, c4peer].filter (isPeerOf c4row 2023)).length
        ("No peer revenue data for " ++ toString (2023 : Int))) :=
  ⟨(c4_peer_context_degenerate [c4row] c4row 2023).1 (by decide),
   (c4_peer_context_degenerate [c4row, c4peer] c4row 2023).2.1
     ⟨c4peer, by simp, by decide⟩ (by decide)⟩

/-- A present change whose absolute value strictly exceeds the threshold, in
the sense of the specification: infinite changes qualify, an absent (NaN)
change never does. -/
def absAboveThreshold (v : FVal) (t : ℚ) : Prop :=
  match v with
  | .nan => False
  | .ninf => True
  | .pinf => True
  | .fin q => t < |q|

theorem fgt_fabs_iff (v : FVal) (t : ℚ) :
    (FVal.fgt v.fabs (.fin t) = true) ↔ (v ≠ .nan ∧ absAboveThreshold v t) := by
  cases v <;> simp [FVal.fgt, FVal.fabs, absAboveThreshold]

/-- C1: after the volatility transform, every record's flag is true exactly
when its year-over-year change is present with absolute value strictly
greater than the configured threshold (default 1/2); in particular a change
of exactly the threshold is not volatile and an absent change is never
volatile. -/
theorem c1_volatility_flag (parse : String → Option PDate) (df : List Record) :
    ∀ r ∈ (run_rule_based_checks parse df).1,
      (r.yoy_volatility_flag = true ↔
        (r.yoy_change ≠ .nan ∧ absAboveThreshold r.yoy_change VOLATILITY_THRESHOLD)) := by
  intro r hr
  have hr' : r ∈ checkedRows parse df := hr
  unfold checkedRows at hr'
  rcases List.mem_map.mp hr' with ⟨x, hx, rfl⟩
  rcases List.mem_map.mp hx with ⟨y, _, rfl⟩
  exact fgt_fabs_iff y.yoy_change VOLATILITY_THRESHOLD

def row0 : Record := mkRow "0" "Z" 2000 none

def c1df : List Record :=
  [mkRow "1" "A" 2021 (some 0), mkRow "1" "A" 2022 (some 5),
   mkRow "2" "B" 2021 none, mkRow "2" "B" 2022 none]

theorem c1_volatility_flag_witness :
    ((run_rule_based_checks noParse c1df).1.getD 1 row0 ∈
        (run_rule_based_checks noParse c1df).1) ∧
    (((run_rule_based_checks noParse c1df).1.getD 1 row0).yoy_volatility_flag = true ↔
      (((run_rule_based_checks noParse c1df).1.getD 1 row0).yoy_change ≠ .nan ∧
        absAboveThreshold ((run_rule_based_checks noParse c1df).1.getD 1 row0).yoy_change
          VOLATILITY_THRESHOLD)) ∧
    FVal.fgt (FVal.fabs (.fin (1/2))) (.fin VOLATILITY_THRESHOLD) = false :=
  ⟨by decide,
   c1_volatility_flag noParse c1df ((run_rule_based_checks noParse c1df).1.getD 1 row0)
     (by decide),
   by
    have habs : |(2 : ℚ)⁻¹| ≤ 2⁻¹ := le_of_eq (abs_of_pos (by norm_num))
    simp [FVal.fgt, FVal.fabs, VOLATILITY_THRESHOLD, habs]⟩

theorem assignYoyGo_length (seen : List (String × Option ℚ)) (l : List Record) :
    (assignYoyGo seen l).length = l.length := by
  induction l generalizing seen with
  | nil => rfl
  | cons r rs ih => simp [assignYoyGo, ih]

theorem assignYoyGo_cons (seen : List (String × Option ℚ)) (r : Record)
    (rs : List Record) :
    assignYoyGo seen (r :: rs) =
      { r with yoy_change :=
          match seen.lookup r.company_name with
          | none => FVal.nan
          | some prev => pctChange prev r.revenue } ::
        assignYoyGo ((r.company_name, r.revenue) :: seen) rs := rfl

theorem assignYoyGo_get_name (seen : List (String × Option ℚ)) (l : List Record)
    (i : Nat) (hi : i < l.length) (hi2 : i < (assignYoyGo seen l).length) :
    ((assignYoyGo seen l).get ⟨i, hi2⟩).company_name = (l.get ⟨i, hi⟩).company_name := by
  induction l generalizing seen i with
  | nil => exact absurd hi (Nat.not_lt_zero i)
  | cons r rs ih =>
    cases i with
    | zero => rfl
    | succ n =>
      have hi' : n < rs.length := Nat.lt_of_succ_lt_succ hi
      have hi2' : n < (assignYoyGo ((r.company_name, r.revenue) :: seen) rs).length := by
        simpa [assignYoyGo_length] using hi'
      have h := ih ((r.company_name, r.revenue) :: seen) n hi' hi2'
      simpa [assignYoyGo_cons] using h

/-- The first row of the walk carrying a given company name — provided that
name is absent from the `seen` state — gets an absent change. -/
theorem assignYoyGo_first_nan (l : List Record) (seen : List (String × Option ℚ))
    (i : Nat) (hi : i < l.length)
    (hseen : seen.lookup ((l.get ⟨i, hi⟩).company_name) = none)
    (hfirst : ∀ j (hj : j < i),
      (l.get ⟨j, lt_trans hj hi⟩).company_name ≠ (l.get ⟨i, hi⟩).company_name)
    (hi2 : i < (assignYoyGo seen l).length) :
    ((assignYoyGo seen l).get ⟨i, hi2⟩).yoy_change = FVal.nan := by
  induction l generalizing seen i with
  | nil => exact absurd hi (Nat.not_lt_zero i)
  | cons r rs ih =>
    cases i with
    | zero =>
      have h0 : seen.lookup r.company_name = none := hseen
      show (match seen.lookup r.company_name with
        | none => FVal.nan
        | some prev => pctChange prev r.revenue) = FVal.nan
      rw [h0]
    | succ n =>
      have hi' : n < rs.length := Nat.lt_of_succ_lt_succ hi
      have hname : ((rs.get ⟨n, hi'⟩).company_name == r.company_name) = false := by
        have h := hfirst 0 (Nat.succ_pos n)
        simp only [List.get_cons_zero, List.get_cons_succ] at h
        exact beq_eq_false_iff_ne.mpr (fun he => h he.symm)
      have hseen' : ((r.company_name, r.revenue) :: seen).lookup
          ((rs.get ⟨n, hi'⟩).company_name) = none := by
        have hs : seen.lookup ((rs.get ⟨n, hi'⟩).company_name) = none := by
          simpa using hseen
        show (match (rs.get ⟨n, hi'⟩).company_name == r.company_name with
          | true => some r.revenue
          | false => List.lookup ((rs.get ⟨n, hi'⟩).company_name) seen) = none
        rw [hname]
        exact hs
      have hfirst' : ∀ j (hj : j < n),
          (rs.get ⟨j, lt_trans hj hi'⟩).company_name ≠ (rs.get ⟨n, hi'⟩).company_name := by
        intro j hj
        have h := hfirst (j + 1) (Nat.succ_lt_succ hj)
        simpa using h
      have hi2' : n < (assignYoyGo ((r.company_name, r.revenue) :: seen) rs).length := by
        simpa [assignYoyGo_length] using hi'
      have h := ih ((r.company_name, r.revenue) :: seen) n hi' hseen' hfirst' hi2'
      simpa [assignYoyGo_cons] using h

/-- C8: in the record set returned by the rule checks, a row preceded by no
row of the same company — in particular the earliest-year row of each entity
in the `(company_name, year)` sort order, for any input, including entities
with a single year or duplicate keys — has an absent year-over-year
change. -/
theorem c8_first_row_change_absent (parse : String → Option PDate) (df : List Record) :
    ∀ i (hi : i < ((run_rule_based_checks parse df).1).length),
      (∀ j (hj : j < i),
        (((run_rule_based_checks parse df).1).get ⟨j, lt_trans hj hi⟩).company_name ≠
          (((run_rule_based_checks parse df).1).get ⟨i, hi⟩).company_name) →
      (((run_rule_based_checks parse df).1).get ⟨i, hi⟩).yoy_change = FVal.nan := by
  intro i hi hfirst
  have hlen0 : ((run_rule_based_checks parse df).1).length =
      (assignYoy (List.insertionSort rowLe (preparedRows parse df))).length := by
    simp [run_rule_based_checks, checkedRows]
  have hiB : i < (assignYoy (List.insertionSort rowLe (preparedRows parse df))).length :=
    hlen0 ▸ hi
  have hget : ∀ (k : Nat) (hk : k < ((run_rule_based_checks parse df).1).length)
      (hkB : k < (assignYoy (List.insertionSort rowLe (preparedRows parse df))).length),
      ((run_rule_based_checks parse df).1).get ⟨k, hk⟩ =
        fillNA (setVolFlag
          ((assignYoy (List.insertionSort rowLe (preparedRows parse df))).get ⟨k, hkB⟩)) := by
    intro k hk hkB
    show (((assignYoy (List.insertionSort rowLe (preparedRows parse df))).map
        setVolFlag).map fillNA).get ⟨k, hk⟩ = _
    simp only [List.get_eq_getElem, List.getElem_map]
  have hiS : i < (List.insertionSort rowLe (preparedRows parse df)).length := by
    simpa [assignYoy, assignYoyGo_length] using hiB
  have nameC : ∀ (k : Nat) (hk : k < ((run_rule_based_checks parse df).1).length)
      (hkS : k < (List.insertionSort rowLe (preparedRows parse df)).length),
      (((run_rule_based_checks parse df).1).get ⟨k, hk⟩).company_name =
        ((List.insertionSort rowLe (preparedRows parse df)).get ⟨k, hkS⟩).company_name := by
    intro k hk hkS
    have hkB : k < (assignYoy (List.insertionSort rowLe (preparedRows parse df))).length := by
      simpa [assignYoy, assignYoyGo_length] using hkS
    rw [hget k hk hkB]
    exact assignYoyGo_get_name [] _ k hkS hkB
  have hfirstS : ∀ j (hj : j < i),
      ((List.insertionSort rowLe (preparedRows parse df)).get
          ⟨j, lt_trans hj hiS⟩).company_name ≠
        ((List.insertionSort rowLe (preparedRows parse df)).get ⟨i, hiS⟩).company_name := by
    intro j hj
    have h := hfirst j hj
    rw [nameC j (lt_trans hj hi) (lt_trans hj hiS), nameC i hi hiS] at h
    exact h
  have hgoal : ((assignYoy (List.insertionSort rowLe (preparedRows parse df))).get
      ⟨i, hiB⟩).yoy_change = FVal.nan :=
    assignYoyGo_first_nan _ [] i hiS rfl hfirstS hiB
  rw [hget i hi hiB]
  exact hgoal

def c8df : List Record :=
  [mkRow "1" "A" 2022 (some 0), mkRow "1" "A" 2021 (some 0),
   mkRow "1" "A" 2021 none]

theorem c8_first_row_change_absent_witness :
    (((run_rule_based_checks noParse c8df).1).get
        ⟨0, by decide⟩).yoy_change = FVal.nan :=
  c8_first_row_change_absent noParse c8df 0 (by decide)
    (fun j hj => absurd hj (Nat.not_lt_zero j))

/-- The per-entry rendering stated by claim C3: the record's year in the
leading slot, then revenue with thousands separators or MISSING, then the
signed-percentage change or MISSING. -/
def claimedEntry (r : Record) : String :=
  toString r.year ++ ": " ++
    ((r.revenue.map (fun q => intWithCommas (ratTrunc q))).getD "MISSING") ++ " (" ++
    (if r.yoy_change = .nan then "MISSING" else pctFmt r.yoy_change) ++ ")"

/-- The per-entry rendering of the amended claim: the record's
fiscal-period-end value ("UNKNOWN" when the cell holds the missing marker
"N/A") in the leading slot; the other two slots as the claim states them. -/
def amendedEntry (r : Record) : String :=
  (if DateCell.pyNe r.fiscal_period_end (.str "N/A") then r.fiscal_period_end.pyStr
    else "UNKNOWN") ++ ": " ++
    ((r.revenue.map (fun q => intWithCommas (ratTrunc q))).getD "MISSING") ++ " (" ++
    (if r.yoy_change = .nan then "MISSING" else pctFmt r.yoy_change) ++ ")"

theorem summaryEntry_eq_amendedEntry (r : Record) : summaryEntry r = amendedEntry r := by
  cases hr : r.revenue <;> simp [summaryEntry, amendedEntry, hr]

def c3row : Record := mkRow "1" "ACME" 2023 (some 1000)

/-- C3 counterexample: on a single-record history the code renders
"31-Dec: 1,000 (MISSING)" — the leading token is the fiscal-period-end value,
not the year 2023 required by the claim's format — so the claimed rendering
is not the one produced. -/
theorem c3_counterexample :
    trailingSummary [c3row] 2023 = "31-Dec: 1,000 (MISSING)" ∧
    String.intercalate "; "
        ((takeLast 3 ([c3row].filter (fun r => decide (r.year ≤ 2023)))).map claimedEntry) =
      "2023: 1,000 (MISSING)" ∧
    trailingSummary [c3row] 2023 ≠
      String.intercalate "; "
        ((takeLast 3 ([c3row].filter (fun r => decide (r.year ≤ 2023)))).map
          claimedEntry) := by
  refine ⟨?_, ?_, ?_⟩ <;> decide

/-- C3 amended: for an entity whose rows arrive in ascending year order (as
the pipeline supplies them), the trailing summary is built from exactly the
at-most-3 most recent rows with year at most the target year (absent years
contribute nothing — gaps are not padded), joined by "; " in ascending year
order, each rendered as "{fiscal-period-end or UNKNOWN}: {revenue with
thousands separators or MISSING} ({signed-percentage change or MISSING})". -/
theorem c3_trailing_summary_amended (company_data : List Record) (target_year : Int)
    (hs : List.Sorted yearLe company_data) :
    trailingSummary company_data target_year =
      String.intercalate "; "
        ((takeLast 3 (company_data.filter (fun r => decide (r.year ≤ target_year)))).map
          amendedEntry) := by
  unfold trailingSummary summarize_company_data
  have hs1 : List.Sorted yearLe
      (company_data.filter (fun r => decide (r.year ≤ target_year))) := hs.filter _
  have hs2 : List.Sorted yearLe
      (takeLast 3 (company_data.filter (fun r => decide (r.year ≤ target_year)))) := by
    unfold takeLast
    exact hs1.sublist (List.drop_sublist _ _)
  rw [hs2.insertionSort_eq]
  have he : summaryEntry = amendedEntry := funext summaryEntry_eq_amendedEntry
  rw [he]

def c3gap : List Record :=
  [{ mkRow "1" "A" 2021 (some 500) with fiscal_period_end := .str "31-Mar" },
   { mkRow "1" "A" 2023 none with fiscal_period_end := .str "N/A" }]

theorem c3_trailing_summary_amended_witness :
    (trailingSummary c3gap 2023 =
      String.intercalate "; "
        ((takeLast 3 (c3gap.filter (fun r => decide (r.year ≤ 2023)))).map amendedEntry)) ∧
    trailingSummary c3gap 2023 = "31-Mar: 500 (MISSING); UNKNOWN: MISSING (MISSING)" :=
  ⟨c3_trailing_summary_amended c3gap 2023 (by decide), by decide⟩

theorem roundHalfEven_nonneg {q : ℚ} (h : 0 ≤ q) : 0 ≤ roundHalfEven q := by
  have hf : (0 : ℤ) ≤ ⌊q⌋ := Int.floor_nonneg.mpr h
  simp only [roundHalfEven]
  split_ifs <;> omega

theorem roundHalfEven_le {q : ℚ} {n : ℤ} (h : q ≤ n) : roundHalfEven q ≤ n := by
  have hf : ⌊q⌋ ≤ n := by
    have h2 := Int.floor_le_floor h
    simpa using h2
  have hkey : ¬ ((1 : ℚ)/2 ≤ q - ⌊q⌋) ∨ ⌊q⌋ < n := by
    by_cases hq : ⌊q⌋ = n
    · left
      intro hr
      have hle : q - (⌊q⌋ : ℚ) ≤ 0 := by
        rw [hq]
        have : q ≤ (n : ℚ) := h
        linarith
      linarith
    · right
      omega
  simp only [roundHalfEven]
  split_ifs with h1 h2 h3
  · exact hf
  · rcases hkey with hk | hk
    · exact absurd (le_of_lt h2) hk
    · omega
  · exact hf
  · rcases hkey with hk | hk
    · exact absurd (le_of_not_lt h1) hk
    · omega

theorem round2_clamp_nonneg (q : ℚ) : 0 ≤ round2 (max 0 (min 1 q)) := by
  have h0 : (0 : ℚ) ≤ max 0 (min 1 q) := le_max_left _ _
  have hnn : 0 ≤ roundHalfEven (max 0 (min 1 q) * 100) :=
    roundHalfEven_nonneg (by positivity)
  unfold round2
  apply div_nonneg _ (by norm_num)
  exact_mod_cast hnn

theorem round2_clamp_le_one (q : ℚ) : round2 (max 0 (min 1 q)) ≤ 1 := by
  have h1 : max 0 (min 1 q) ≤ 1 := max_le (by norm_num) (min_le_left _ _)
  have hle : roundHalfEven (max 0 (min 1 q) * 100) ≤ (100 : ℤ) := by
    apply roundHalfEven_le
    push_cast
    linarith
  unfold round2
  rw [div_le_one (by norm_num)]
  exact_mod_cast hle

/-- A well-formed judgment dictionary in the sense of claim C7 (minus its
explanation conjunct): verdict in the closed set, confidence in [0, 1]. -/
def wellFormedResp (p : ParsedResponse) : Prop :=
  (p.verdict = "plausible" ∨ p.verdict = "implausible" ∨ p.verdict = "uncertain") ∧
    0 ≤ p.confidence ∧ p.confidence ≤ 1

theorem coerceVerdict_mem (v : JVal) :
    coerceVerdict v = "plausible" ∨ coerceVerdict v = "implausible" ∨
      coerceVerdict v = "uncertain" := by
  cases v with
  | jstr s =>
      by_cases h : s = "plausible" ∨ s = "implausible" ∨ s = "uncertain"
      · simp only [coerceVerdict, if_pos h]
        exact h
      · simp [coerceVerdict, h]
  | jnull => simp [coerceVerdict]
  | jbool b => simp [coerceVerdict]
  | jnum q => simp [coerceVerdict]
  | jarr => simp [coerceVerdict]
  | jobj => simp [coerceVerdict]

theorem parse_text_fallback_wellFormed (s : String) :
    wellFormedResp (parse_text_fallback s) := by
  simp only [parse_text_fallback, wellFormedResp]
  split_ifs <;> norm_num

theorem normalizeFields_wellFormed (pyFloat : JVal → Option ℚ) (s : String)
    (fields : List (String × JVal)) : wellFormedResp (normalizeFields pyFloat s fields) := by
  unfold normalizeFields
  rcases hv : fields.lookup "verdict" with _ | v
  · simpa using parse_text_fallback_wellFormed s
  rcases he : fields.lookup "explanation" with _ | e
  · simpa using parse_text_fallback_wellFormed s
  rcases hc : fields.lookup "confidence" with _ | c
  · simpa using parse_text_fallback_wellFormed s
  rcases hpf : pyFloat c with _ | q
  · refine ⟨coerceVerdict_mem v, ?_, ?_⟩
    · simp [hpf]
    · simp [hpf]
      norm_num
  · refine ⟨coerceVerdict_mem v, ?_, ?_⟩
    · simpa [hpf] using round2_clamp_nonneg q
    · simpa [hpf] using round2_clamp_le_one q

/-- C7 amended: for every response (a string or a falsy non-string) and every
behavior of the `json.loads` and `float` library collaborators,
`parse_llm_response` returns a dictionary whose verdict lies in the closed
set {plausible, implausible, uncertain} (values outside it coerced) and whose
confidence lies in [0, 1] (clamped / defaulted); a response the JSON decoder
rejects is reduced by the keyword fallback on the raw text.  (The
explanation of a successfully decoded response is kept verbatim, whatever
JSON type it has; it is text on every fallback path.) -/
theorem c7_parse_llm_response_amended
    (jsonParse : String → Option (List (String × JVal))) (pyFloat : JVal → Option ℚ)
    (resp : Option String) :
    wellFormedResp (parse_llm_response jsonParse pyFloat resp) ∧
    (∀ s : String, resp = some s → s ≠ "" →
      jsonParse (braceSlice (stripFences (pyStrip s))) = none →
      parse_llm_response jsonParse pyFloat resp = parse_text_fallback s) := by
  constructor
  · cases resp with
    | none =>
        show wellFormedResp noResponseResult
        unfold wellFormedResp noResponseResult
        norm_num
    | some s =>
        by_cases hs : s = ""
        · simp only [parse_llm_response, hs, if_pos rfl]
          unfold wellFormedResp noResponseResult
          norm_num
        · simp only [parse_llm_response, if_neg hs]
          rcases hp : jsonParse (braceSlice (stripFences (pyStrip s))) with _ | fields
          · exact parse_text_fallback_wellFormed s
          · exact normalizeFields_wellFormed pyFloat s fields
  · rintro s rfl hs hp
    simp only [parse_llm_response, if_neg hs, hp]

def pyFloatDefault : JVal → Option ℚ
  | .jnum q => some q
  | .jbool b => some (if b then 1 else 0)
  | _ => none

def noJson : String → Option (List (String × JVal)) := fun _ => none

def c7FreeText : String := "This is not JSON but contains plausible"

theorem c7_parse_llm_response_amended_witness :
    wellFormedResp (parse_llm_response noJson pyFloatDefault (some c7FreeText)) ∧
    parse_llm_response noJson pyFloatDefault (some c7FreeText) =
      parse_text_fallback c7FreeText :=
  ⟨(c7_parse_llm_response_amended noJson pyFloatDefault (some c7FreeText)).1,
   (c7_parse_llm_response_amended noJson pyFloatDefault (some c7FreeText)).2
     c7FreeText rfl (by decide) rfl⟩

def c7RespText : String :=
  "\x7b\"verdict\": \"plausible\", \"explanation\": 5, \"confidence\": 1\x7d"

/-- A `json.loads` instance that decodes `c7RespText` exactly as the real
decoder does (the explanation field is the JSON number 5) and rejects
everything else. -/
def c7JsonParse : String → Option (List (String × JVal)) := fun s =>
  if s = c7RespText then
    some [("verdict", .jstr "plausible"), ("explanation", .jnum 5), ("confidence", .jnum 1)]
  else none

def JVal.isTextual : JVal → Bool
  | .jstr _ => true
  | _ => false

/-- C7 counterexample: a well-formed JSON response whose explanation field is
the JSON number 5 is returned with that non-text explanation verbatim, so
"the explanation is text" fails on the code. -/
theorem c7_counterexample :
    (parse_llm_response c7JsonParse pyFloatDefault (some c7RespText)).explanation =
      JVal.jnum 5 ∧
    JVal.isTextual
        (parse_llm_response c7JsonParse pyFloatDefault (some c7RespText)).explanation =
      false := by
  refine ⟨?_, ?_⟩ <;> decide

theorem FVal.ltKey_trans {a b c : FVal} (h1 : FVal.ltKey a b) (h2 : FVal.ltKey b c) :
    FVal.ltKey a c := by
  rcases h1 with h1 | ⟨h1e, h1v⟩ <;> rcases h2 with h2 | ⟨h2e, h2v⟩
  · exact Or.inl (Nat.lt_trans h1 h2)
  · exact Or.inl (h2e ▸ h1)
  · exact Or.inl (h1e ▸ h2)
  · exact Or.inr ⟨h1e.trans h2e, lt_trans h1v h2v⟩

theorem FVal.ltKey_trichotomy (a b : FVal) :
    FVal.ltKey a b ∨ a = b ∨ FVal.ltKey b a := by
  rcases Nat.lt_trichotomy a.rank b.rank with h | h | h
  · exact Or.inl (Or.inl h)
  · rcases lt_trichotomy a.finVal b.finVal with hv | hv | hv
    · exact Or.inl (Or.inr ⟨h, hv⟩)
    · refine Or.inr (Or.inl ?_)
      cases a <;> cases b <;> simp_all [FVal.rank, FVal.finVal]
    · exact Or.inr (Or.inr (Or.inr ⟨h.symm, hv⟩))
  · exact Or.inr (Or.inr (Or.inl h))

theorem FVal.fgt_iff_ltKey {a b : FVal} (ha : a ≠ .nan) (hb : b ≠ .nan) :
    (FVal.fgt a b = true) ↔ FVal.ltKey b a := by
  cases a <;> cases b <;>
    simp_all [FVal.fgt, FVal.ltKey, FVal.rank, FVal.finVal]

theorem nameLe_trans {a b c : String} (h1 : nameLe a b) (h2 : nameLe b c) : nameLe a c :=
  IsTrans.trans a b c h1 h2

theorem nameLe_total (a b : String) : nameLe a b ∨ nameLe b a :=
  IsTotal.total a b

instance : IsTotal (String × FVal) selGe := by
  constructor
  intro a b
  rcases FVal.ltKey_trichotomy a.2 b.2 with h | h | h
  · exact Or.inr (Or.inl h)
  · rcases nameLe_total a.1 b.1 with hn | hn
    · exact Or.inl (Or.inr ⟨h, hn⟩)
    · exact Or.inr (Or.inr ⟨h.symm, hn⟩)
  · exact Or.inl (Or.inl h)

instance : IsTrans (String × FVal) selGe := by
  constructor
  intro a b c h1 h2
  rcases h1 with h1 | ⟨h1e, h1n⟩ <;> rcases h2 with h2 | ⟨h2e, h2n⟩
  · exact Or.inl (FVal.ltKey_trans h2 h1)
  · exact Or.inl (by rw [h2e] at h1; exact h1)
  · exact Or.inl (by rw [h1e]; exact h2)
  · exact Or.inr ⟨h1e.trans h2e, nameLe_trans h1n h2n⟩

/-- The filtered, name-keyed aggregate pool that `nlargest` ranks (its NaN
entries dropped). -/
def selPool (df : List Record) : List (String × FVal) :=
  (((volatileNames df).map (fun k => (k, groupMaxAbs df k))).filter
    (fun kv => decide (kv.2 ≠ .nan)))

/-- The pool in the descending order `nlargest` produces. -/
def selSorted (df : List Record) : List (String × FVal) :=
  List.insertionSort selGe (selPool df)

theorem selectedCompanies_eq (topN : Nat) (df : List Record) :
    selectedCompanies topN df = ((selSorted df).take topN).map (fun kv => kv.1) := rfl

theorem mem_selPool {df : List Record} {kv : String × FVal} (h : kv ∈ selPool df) :
    kv.1 ∈ volatileNames df ∧ kv.2 = groupMaxAbs df kv.1 ∧ kv.2 ≠ .nan := by
  rcases List.mem_filter.mp h with ⟨hg, hnn⟩
  rcases List.mem_map.mp hg with ⟨k, hk, rfl⟩
  exact ⟨hk, rfl, by simpa using hnn⟩

theorem mem_sel_elim {topN : Nat} {df : List Record} {s : String}
    (hs : s ∈ selectedCompanies topN df) :
    ∃ kv ∈ (selSorted df).take topN, kv.1 = s ∧ kv.2 = groupMaxAbs df s ∧
      s ∈ volatileNames df ∧ groupMaxAbs df s ≠ .nan := by
  rw [selectedCompanies_eq] at hs
  rcases List.mem_map.mp hs with ⟨kv, hkv, rfl⟩
  have hsorted : kv ∈ selSorted df := List.mem_of_mem_take hkv
  have hpool : kv ∈ selPool df := by
    have := (List.perm_insertionSort selGe (selPool df)).mem_iff.mp hsorted
    exact this
  rcases mem_selPool hpool with ⟨hk, hv, hnn⟩
  exact ⟨kv, hkv, rfl, hv, hk, hv ▸ hnn⟩

/-- C2 amended: `run_llm_analysis` selects at most `topN` entities — exactly
`topN` when at least that many volatile entities have a non-NaN aggregate —
every selected name is a volatile entity, every selected entity strictly
beats every non-selected volatile entity in the (max |change| descending,
company name ascending) order used by `nlargest` on the name-sorted groupby
series (which coincides with original relative order whenever the input is
name-sorted, as the rule-check stage emits it), and every record of every
non-selected entity keeps all three judgment fields absent. -/
theorem c2_run_llm_analysis_amended (judge : String → String → PeerContext → LlmResult)
    (topN : Nat) (df : List Record) :
    ((selectedCompanies topN df).length ≤ topN) ∧
    (∀ s ∈ selectedCompanies topN df, s ∈ volatileNames df) ∧
    (topN ≤ ((volatileNames df).filter
        (fun k => decide (groupMaxAbs df k ≠ .nan))).length →
      (selectedCompanies topN df).length = topN) ∧
    (∀ e ∈ volatileNames df, groupMaxAbs df e ≠ .nan →
      e ∉ selectedCompanies topN df →
      ∀ s ∈ selectedCompanies topN df,
        FVal.fgt (groupMaxAbs df s) (groupMaxAbs df e) = true ∨
          (groupMaxAbs df s = groupMaxAbs df e ∧ strLt s e = true)) ∧
    (∀ r ∈ (run_llm_analysis judge topN df).1,
      r.company_name ∉ selectedCompanies topN df →
      r.llm_verdict = none ∧ r.llm_explanation = none ∧ r.llm_confidence = none) := by
  have hlenPool : (selPool df).length =
      ((volatileNames df).filter (fun k => decide (groupMaxAbs df k ≠ .nan))).length := by
    unfold selPool
    rw [List.filter_map, List.length_map]
    congr 1
  refine ⟨?_, ?_, ?_, ?_, ?_⟩
  · rw [selectedCompanies_eq, List.length_map, List.length_take]
    exact min_le_left _ _
  · intro s hs
    rcases mem_sel_elim hs with ⟨kv, _, _, _, hk, _⟩
    exact hk
  · intro hN
    rw [selectedCompanies_eq, List.length_map, List.length_take]
    have hlen : (selSorted df).length = (selPool df).length := by
      unfold selSorted
      exact List.length_insertionSort _ _
    omega
  · intro e he hnn hnot s hs
    rcases mem_sel_elim hs with ⟨ks, hks, hks1, hks2, _, hsnn⟩
    have hpe : (e, groupMaxAbs df e) ∈ selPool df := by
      unfold selPool
      refine List.mem_filter.mpr ⟨List.mem_map_of_mem _ he, by simpa using hnn⟩
    have hpes : (e, groupMaxAbs df e) ∈ selSorted df := by
      unfold selSorted
      exact (List.perm_insertionSort selGe (selPool df)).mem_iff.mpr hpe
    have hped : (e, groupMaxAbs df e) ∈ (selSorted df).drop topN := by
      have hsplit := List.take_append_drop topN (selSorted df)
      rcases (List.mem_append.mp (by rw [hsplit]; exact hpes)) with hin | hout
      · exfalso
        apply hnot
        rw [selectedCompanies_eq]
        exact List.mem_map_of_mem _ hin
      · exact hout
    have hsorted : List.Sorted selGe (selSorted df) := List.sorted_insertionSort selGe _
    have hpw : List.Pairwise selGe ((selSorted df).take topN ++ (selSorted df).drop topN) := by
      rw [List.take_append_drop]
      exact hsorted
    have hrel : selGe ks (e, groupMaxAbs df e) :=
      (List.pairwise_append.mp hpw).2.2 ks hks _ hped
    rcases hrel with hlt | ⟨heq, hname⟩
    · left
      rw [hks2] at hlt
      exact (FVal.fgt_iff_ltKey hsnn hnn).mpr hlt
    · right
      rw [hks2] at heq
      rw [hks1] at hname
      have hne : s ≠ e := fun hse => hnot (hse ▸ hs)
      exact ⟨heq, strLt_of_ne_of_not_lt hne hname⟩
  · intro r hr hns
    rcases List.mem_map.mp hr with ⟨x, _, rfl⟩
    by_cases hc : (selectedCompanies topN df).contains x.company_name
    · exfalso
      apply hns
      have hmem : x.company_name ∈ selectedCompanies topN df := by
        simpa using hc
      simp [hc, applyJudgment, hmem]
    · have hmem : x.company_name ∉ selectedCompanies topN df := by
        simpa using hc
      simp [hc, hmem]

def c2row (pid name : String) (year : Int) : Record :=
  { mkRow pid name year none with yoy_change := FVal.pinf, yoy_volatility_flag := true }

def c2df : List Record :=
  [c2row "1" "D" 2020, c2row "2" "C" 2020, c2row "3" "B" 2020, c2row "4" "A" 2020]

/-- Value-descending order with ties left untouched: with a stable sort this
realizes claim C2's "ties broken by original relative order". -/
def selGeStable (a b : String × FVal) : Prop := FVal.ltKey b.2 a.2 ∨ a.2 = b.2

instance : DecidableRel selGeStable := fun a b =>
  inferInstanceAs (Decidable (FVal.ltKey b.2 a.2 ∨ a.2 = b.2))

/-- Modelled from claim C2's words: group keys in order of first appearance
(original relative order), aggregate as the code does, drop NaN aggregates,
rank by aggregate descending with ties broken by original relative order (a
stable sort), and keep the top `topN`. -/
def claimedSelection (topN : Nat) (df : List Record) : List String :=
  ((List.insertionSort selGeStable
      (((((volatileRows df).map (fun r => r.company_name)).eraseDups).map
        (fun k => (k, groupMaxAbs df k))).filter
          (fun kv => decide (kv.2 ≠ .nan)))).take topN).map (fun kv => kv.1)

/-- C2 counterexample: four equally volatile entities appear in the order D,
C, B, A.  The code's `nlargest` on the name-sorted groupby series keeps
A, B, C; the claim's original-relative-order tie-break keeps D, C, B. -/
theorem c2_counterexample :
    selectedCompanies 3 c2df = ["A", "B", "C"] ∧
    claimedSelection 3 c2df = ["D", "C", "B"] ∧
    selectedCompanies 3 c2df ≠ claimedSelection 3 c2df := by
  refine ⟨?_, ?_, ?_⟩ <;> decide

def c2judge : String → String → PeerContext → LlmResult := fun _ _ _ => {}

def c2out : List Record := (run_llm_analysis c2judge 3 c2df).1

theorem c2_run_llm_analysis_amended_witness :
    ((selectedCompanies 3 c2df).length ≤ 3) ∧
    (FVal.fgt (groupMaxAbs c2df "A") (groupMaxAbs c2df "D") = true ∨
      (groupMaxAbs c2df "A" = groupMaxAbs c2df "D" ∧ strLt "A" "D" = true)) ∧
    ((c2out.getD 0 row0).llm_verdict = none ∧
      (c2out.getD 0 row0).llm_explanation = none ∧
      (c2out.getD 0 row0).llm_confidence = none) :=
  ⟨(c2_run_llm_analysis_amended c2judge 3 c2df).1,
   (c2_run_llm_analysis_amended c2judge 3 c2df).2.2.2.1 "D" (by decide) (by decide)
     (by decide) "A" (by decide),
   (c2_run_llm_analysis_amended c2judge 3 c2df).2.2.2.2 (c2out.getD 0 row0) (by decide)
     (by decide)⟩

/-- Forget the column that preserves the pre-upper-casing original name. -/
def scrubOriginal (r : Record) : Record := { r with company_name_original := "" }

/-- Two input rows that differ at most in the letter case of the company
name: case-insensitively equal names, all other columns equal. -/
def caseVariantRow (a b : Record) : Prop :=
  pyUpper a.company_name = pyUpper b.company_name ∧
    { a with company_name := "" } = { b with company_name := "" }

/-- The result bundle with the original-name column forgotten inside its
record lists. -/
def scrubResults (c : CheckResults) : CheckResults :=
  { c with duplicates := c.duplicates.map scrubOriginal,
           volatility_flags := c.volatility_flags.map scrubOriginal }

theorem prepRow_caseVariant (parse : String → Option PDate) {a b : Record}
    (h : caseVariantRow a b) :
    scrubOriginal (prepRow parse a) = scrubOriginal (prepRow parse b) := by
  obtain ⟨hup, hmask⟩ := h
  cases a
  cases b
  simp only [Record.mk.injEq] at hmask
  obtain ⟨h1, -, h3, h4, h5, h6, h7, h8, h9, h10, h11, h12, h13, h14, h15, h16, h17⟩ := hmask
  subst h1 h3 h4 h5 h6 h7 h8 h9 h10 h11 h12 h13 h14 h15 h16 h17
  simp only [prepRow, correctRowDate, inferRowUnit, upperRowName, scrubOriginal] at hup ⊢
  simp [Record.mk.injEq, hup]

theorem preparedRows_caseVariant (parse : String → Option PDate) {df₁ df₂ : List Record}
    (h : List.Forall₂ caseVariantRow df₁ df₂) :
    (preparedRows parse df₁).map scrubOriginal =
      (preparedRows parse df₂).map scrubOriginal := by
  unfold preparedRows
  induction h with
  | nil => rfl
  | cons hab _ ih =>
      simp only [List.map_cons]
      rw [prepRow_caseVariant parse hab, ih]

theorem insertionSort_scrub (l : List Record) :
    List.insertionSort rowLe (l.map scrubOriginal) =
      (List.insertionSort rowLe l).map scrubOriginal :=
  (List.map_insertionSort rowLe rowLe scrubOriginal l
    (fun _ _ _ _ => Iff.rfl)).symm

theorem assignYoyGo_scrub (seen : List (String × Option ℚ)) (l : List Record) :
    assignYoyGo seen (l.map scrubOriginal) = (assignYoyGo seen l).map scrubOriginal := by
  induction l generalizing seen with
  | nil => rfl
  | cons r rs ih =>
      simp only [List.map_cons, assignYoyGo_cons]
      rw [ih]
      exact rfl

theorem checkedRows_scrub (parse : String → Option PDate) (df : List Record) :
    (checkedRows parse df).map scrubOriginal =
      ((assignYoy (List.insertionSort rowLe
        ((preparedRows parse df).map scrubOriginal))).map setVolFlag).map fillNA := by
  unfold checkedRows assignYoy
  rw [insertionSort_scrub, assignYoyGo_scrub]
  rw [List.map_map, List.map_map, List.map_map, List.map_map]
  exact rfl

theorem countP_scrub_eq {L₁ L₂ : List Record}
    (hL : L₁.map scrubOriginal = L₂.map scrubOriginal) (p : Record → Bool)
    (hp : ∀ r, p (scrubOriginal r) = p r) : L₁.countP p = L₂.countP p := by
  have h1 : (L₁.map scrubOriginal).countP p = L₁.countP p := by
    rw [List.countP_map]
    exact List.countP_congr (fun r _ => by rw [Function.comp_apply, hp r])
  have h2 : (L₂.map scrubOriginal).countP p = L₂.countP p := by
    rw [List.countP_map]
    exact List.countP_congr (fun r _ => by rw [Function.comp_apply, hp r])
  rw [← h1, ← h2, hL]

theorem duplicatedRows_scrub (l : List Record) :
    duplicatedRows (l.map scrubOriginal) = (duplicatedRows l).map scrubOriginal := by
  unfold duplicatedRows
  rw [List.filter_map]
  congr 1
  refine List.filter_congr (fun r _ => ?_)
  show decide (2 ≤ (l.map scrubOriginal).countP
      (fun x => (x.company_name == (scrubOriginal r).company_name) &&
        (x.year == (scrubOriginal r).year))) =
    decide (2 ≤ l.countP (fun x => (x.company_name == r.company_name) && (x.year == r.year)))
  rw [List.countP_map]
  exact rfl

theorem assignYoyGo_mem_names {seen : List (String × Option ℚ)} {l : List Record}
    {y : Record} (hy : y ∈ assignYoyGo seen l) :
    ∃ x ∈ l, y.company_name = x.company_name ∧
      y.company_name_original = x.company_name_original := by
  induction l generalizing seen with
  | nil => cases hy
  | cons r rs ih =>
      rw [assignYoyGo_cons] at hy
      rcases List.mem_cons.mp hy with hy0 | hy1
      · exact ⟨r, List.mem_cons_self r rs, by rw [hy0], by rw [hy0]⟩
      · rcases ih hy1 with ⟨x, hx, h1, h2⟩
        exact ⟨x, List.mem_cons_of_mem r hx, h1, h2⟩

/-- C10: `run_rule_based_checks` replaces every company name by its
upper-cased form before duplicate detection, the volatility transform and
everything downstream (preserving the original in a separate column), so
those computations identify entities case-insensitively: changing only the
letter case of input names changes nothing in the output — records, counts,
duplicate and volatile sets — except the preserved original-name column. -/
theorem c10_case_insensitive (parse : String → Option PDate) (df₁ df₂ : List Record)
    (h : List.Forall₂ caseVariantRow df₁ df₂) :
    ((run_rule_based_checks parse df₁).1.map scrubOriginal =
      (run_rule_based_checks parse df₂).1.map scrubOriginal) ∧
    (scrubResults (run_rule_based_checks parse df₁).2 =
      scrubResults (run_rule_based_checks parse df₂).2) ∧
    (∀ r ∈ (run_rule_based_checks parse df₁).1,
      r.company_name = pyUpper r.company_name_original) := by
  have hprep := preparedRows_caseVariant parse h
  have hfinal : (checkedRows parse df₁).map scrubOriginal =
      (checkedRows parse df₂).map scrubOriginal := by
    rw [checkedRows_scrub, checkedRows_scrub, hprep]
  refine ⟨hfinal, ?_, ?_⟩
  · have hmiss : (preparedRows parse df₁).countP (fun r => r.revenue.isNone) =
        (preparedRows parse df₂).countP (fun r => r.revenue.isNone) :=
      countP_scrub_eq hprep _ (fun r => rfl)
    have hdup : (duplicatedRows (preparedRows parse df₁)).map scrubOriginal =
        (duplicatedRows (preparedRows parse df₂)).map scrubOriginal := by
      rw [← duplicatedRows_scrub, ← duplicatedRows_scrub, hprep]
    have hvol : ((checkedRows parse df₁).filter
          (fun r => r.yoy_volatility_flag)).map scrubOriginal =
        ((checkedRows parse df₂).filter
          (fun r => r.yoy_volatility_flag)).map scrubOriginal := by
      have e : ∀ L : List Record,
          (L.filter (fun r => r.yoy_volatility_flag)).map scrubOriginal =
            (L.map scrubOriginal).filter (fun r => r.yoy_volatility_flag) := by
        intro L
        rw [List.filter_map]
        exact rfl
      rw [e, e, hfinal]
    have hc1 : (checkedRows parse df₁).countP (fun r => r.date_was_corrected) =
        (checkedRows parse df₂).countP (fun r => r.date_was_corrected) :=
      countP_scrub_eq hfinal _ (fun r => rfl)
    have hc2 : (checkedRows parse df₁).countP (fun r => r.flag_date_format) =
        (checkedRows parse df₂).countP (fun r => r.flag_date_format) :=
      countP_scrub_eq hfinal _ (fun r => rfl)
    simp only [run_rule_based_checks, scrubResults, CheckResults.mk.injEq]
    exact ⟨trivial, trivial, hmiss, hdup, hvol, hc1, hc2⟩
  · intro r hr
    have hr' : r ∈ checkedRows parse df₁ := hr
    unfold checkedRows at hr'
    rcases List.mem_map.mp hr' with ⟨x, hx, rfl⟩
    rcases List.mem_map.mp hx with ⟨y, hy, rfl⟩
    rcases assignYoyGo_mem_names hy with ⟨z, hz, hn1, hn2⟩
    have hz' : z ∈ preparedRows parse df₁ :=
      (List.perm_insertionSort rowLe (preparedRows parse df₁)).mem_iff.mp hz
    rcases List.mem_map.mp hz' with ⟨w, _, rfl⟩
    show y.company_name = pyUpper y.company_name_original
    rw [hn1, hn2]
    rfl

def c10a : Record := mkRow "1" "Acme" 2021 none

def c10b : Record := mkRow "1" "ACME" 2021 none

theorem c10_case_insensitive_witness :
    ((run_rule_based_checks noParse [c10a]).1.map scrubOriginal =
      (run_rule_based_checks noParse [c10b]).1.map scrubOriginal) ∧
    (scrubResults (run_rule_based_checks noParse [c10a]).2 =
      scrubResults (run_rule_based_checks noParse [c10b]).2) ∧
    (∀ r ∈ (run_rule_based_checks noParse [c10a]).1,
      r.company_name = pyUpper r.company_name_original) :=
  c10_case_insensitive noParse [c10a] [c10b]
    (List.Forall₂.cons ⟨by decide, by decide⟩ List.Forall₂.nil)

end DQ
